import Mathlib

/-!
Verification development for `src/password_timing_demo.py`, a sequential
benchmark that times SHA-256, bcrypt, scrypt and Argon2id password hashing.

The Python script is shallowly embedded:
* byte strings are `List Nat`;
* the OS entropy source (`os.urandom`, `bcrypt.gensalt`) is a `RandomState`,
  an infinite byte stream with a cursor, so that consumption of randomness
  is observable as cursor advancement;
* the external cryptographic primitives (out of scope per the library docs:
  `hashlib.sha256`, `bcrypt.hashpw`, `hashlib.scrypt`,
  `argon2.low_level.hash_secret`) are modelled as the free constructors of
  `HashOutput`: deterministic, pure functions of their inputs;
* the monotonic clock `time.perf_counter` is a `Clock`, a stream of rational
  readings with a read counter;
* Python errors are the inductive `PyError`.
-/

/-- Byte strings (`bytes` in Python) as lists of naturals; the 0..255 range
constraint is immaterial to every property proved here. -/
abbrev Bytes := List Nat

/-- The OS entropy source: an infinite stream of bytes together with a cursor
marking how many bytes have been consumed.  Drawing randomness advances the
cursor; a computation that leaves the cursor unchanged drew no randomness. -/
structure RandomState where
  stream : Nat → Nat
  cursor : Nat

/-- Embedding of `os.urandom(k)`: returns the next `k` bytes of the entropy
stream and advances the cursor by `k`. -/
def urandom (k : Nat) (r : RandomState) : Bytes × RandomState :=
  ((List.range k).map (fun i => r.stream (r.cursor + i)),
   { r with cursor := r.cursor + k })

/-- A bcrypt salt as produced by `bcrypt.gensalt(rounds=cost)`: it encodes the
cost factor together with 16 random bytes.  The textual base64 encoding of the
library is abstracted to this record, which carries the same information. -/
structure BcryptSalt where
  rounds : Nat
  randomBytes : Bytes
deriving DecidableEq

/-- Embedding of `bcrypt.gensalt(rounds=cost)` (external library): draws 16
bytes from the entropy source and packages them with the cost factor. -/
def bcrypt_gensalt (rounds : Nat) (r : RandomState) : BcryptSalt × RandomState :=
  let br := urandom 16 r
  (⟨rounds, br.1⟩, br.2)

/-- The Argon2 variant selector (`argon2.low_level.Type`). -/
inductive Argon2Type
  | D
  | I
  | ID
deriving DecidableEq

/-- Values computed by the external hash primitives, modelled as a free
algebra: each primitive is a deterministic pure function of its inputs, and
distinct inputs are not identified (the primitives are injective black
boxes). -/
inductive HashOutput
  | sha256 (data : Bytes)
  | bcrypt (password : Bytes) (salt : BcryptSalt)
  | scrypt (password : Bytes) (salt : Bytes) (n r p : Nat)
  | argon2 (secret : Bytes) (salt : Bytes)
      (time_cost memory_cost parallelism hash_len : Nat) (type : Argon2Type)
deriving DecidableEq

/-- Observable trace of one call of a `do_hash` closure: the hash value the
body computed (and then discarded), the Python return value of the closure
(`none` = Python `None`: the bodies have no return statement), and the state
of the entropy source after the call. -/
structure InvokeTrace where
  computed : HashOutput
  ret : Option HashOutput
  world : RandomState

/-- Closure environment captured by `make_sha256_hasher` (lines 70-74). -/
structure Sha256Closure where
  password : Bytes

/-- Embedding of `make_sha256_hasher` (lines 70-74): captures the password;
no salt, no randomness. -/
def make_sha256_hasher (password : Bytes) : Sha256Closure :=
  ⟨password⟩

/-- Body of the `do_hash` closure of `make_sha256_hasher` (lines 72-73):
`hashlib.sha256(password).hexdigest()`, value discarded.  The hex digest
string is abstracted to the `HashOutput.sha256` constructor. -/
def Sha256Closure.do_hash (c : Sha256Closure) (w : RandomState) : InvokeTrace :=
  ⟨.sha256 c.password, none, w⟩

/-- Closure environment captured by `make_bcrypt_hasher` (lines 77-83). -/
structure BcryptClosure where
  password : Bytes
  salt : BcryptSalt

/-- Embedding of `make_bcrypt_hasher` (lines 77-83): generates the salt via
`bcrypt.gensalt(rounds=cost)` at construction time and captures it. -/
def make_bcrypt_hasher (password : Bytes) (cost : Nat) (w : RandomState) :
    BcryptClosure × RandomState :=
  let sw := bcrypt_gensalt cost w
  (⟨password, sw.1⟩, sw.2)

/-- Body of the `do_hash` closure of `make_bcrypt_hasher` (lines 81-82):
`bcrypt.hashpw(password, salt)`, value discarded. -/
def BcryptClosure.do_hash (c : BcryptClosure) (w : RandomState) : InvokeTrace :=
  ⟨.bcrypt c.password c.salt, none, w⟩

/-- Closure environment captured by `make_scrypt_hasher` (lines 86-92). -/
structure ScryptClosure where
  password : Bytes
  n : Nat
  r : Nat
  p : Nat
  salt : Bytes

/-- Embedding of `make_scrypt_hasher` (lines 86-92): generates
`salt = os.urandom(16)` at construction time and captures it. -/
def make_scrypt_hasher (password : Bytes) (n r p : Nat) (w : RandomState) :
    ScryptClosure × RandomState :=
  let sw := urandom 16 w
  (⟨password, n, r, p, sw.1⟩, sw.2)

/-- Body of the `do_hash` closure of `make_scrypt_hasher` (lines 90-91):
`hashlib.scrypt(password, salt=salt, n=n, r=r, p=p)`, value discarded. -/
def ScryptClosure.do_hash (c : ScryptClosure) (w : RandomState) : InvokeTrace :=
  ⟨.scrypt c.password c.salt c.n c.r c.p, none, w⟩

/-- Closure environment captured by `make_argon2id_hasher` (lines 95-113). -/
structure Argon2Closure where
  password : Bytes
  time_cost : Nat
  memory_cost : Nat
  parallelism : Nat
  salt : Bytes

/-- Embedding of `make_argon2id_hasher` (lines 95-113): generates
`salt = os.urandom(16)` at construction time and captures it. -/
def make_argon2id_hasher (password : Bytes) (time_cost memory_cost parallelism : Nat)
    (w : RandomState) : Argon2Closure × RandomState :=
  let sw := urandom 16 w
  (⟨password, time_cost, memory_cost, parallelism, sw.1⟩, sw.2)

/-- Body of the `do_hash` closure of `make_argon2id_hasher` (lines 102-112):
`hash_secret(secret=password, salt=salt, time_cost=..., memory_cost=...,
parallelism=..., hash_len=32, type=Type.ID)`, value discarded. -/
def Argon2Closure.do_hash (c : Argon2Closure) (w : RandomState) : InvokeTrace :=
  ⟨.argon2 c.password c.salt c.time_cost c.memory_cost c.parallelism 32 .ID, none, w⟩

/-- Python errors that can cross `time_hasher` / the `__main__` block, plus
the two error kinds named by the specification's taxonomy (§7),
`invalidArgument` and `operationFailed`, which the source never raises — they
are needed to state what the spec asks for. -/
inductive PyError
  | zeroDivisionError
  | opError (msg : String)
  | invalidArgument
  | operationFailed (iteration : Nat)
deriving DecidableEq

/-- Whether an error is the spec's iteration-tagged `OperationFailed`. -/
def PyError.isOperationFailed : PyError → Bool
  | .operationFailed _ => true
  | _ => false

/-- A zero-argument Python callable as `time_hasher` sees it: the behaviour of
its k-th call (0-indexed) is either to return normally (`none`; the returned
value is discarded by the timing loop) or to raise (`some e`). -/
def PyCallable := Nat → Option PyError

/-- The monotonic clock `time.perf_counter`: a stream of readings and a
counter of how many readings have been taken so far. -/
structure Clock where
  readings : Nat → ℚ
  reads : Nat

/-- A run of `k` space characters. -/
def spaces (k : Nat) : String :=
  String.mk (List.replicate k ' ')

/-- Python format spec `:10s` style: left-justify `s` in a field of minimum
width `w` by appending spaces. -/
def padRightTo (s : String) (w : Nat) : String :=
  s ++ spaces (w - s.length)

/-- Python format spec `:8.2f` field alignment: right-justify `s` in a field
of minimum width `w` by prepending spaces. -/
def padLeftTo (s : String) (w : Nat) : String :=
  spaces (w - s.length) ++ s

/-- Round a rational to the nearest integer, ties to even — the rounding of
Python's fixed-point float formatting. -/
def roundHalfEven (q : ℚ) : Int :=
  let f : Int := ⌊q⌋
  let rem : ℚ := q - f
  if rem < 1/2 then f
  else if 1/2 < rem then f + 1
  else if f % 2 = 0 then f else f + 1

/-- Python `f\x7bx:.2f\x7d` over the rational model: the value rounded to
hundredths, rendered with exactly two digits after the decimal point.  (The
binary-float representation step of CPython is outside the rational model; it
never changes the shape of the rendered string.) -/
def fixed2 (q : ℚ) : String :=
  let c : Int := roundHalfEven (q * 100)
  let sign : String := if c < 0 then "-" else ""
  let n : Nat := c.natAbs
  sign ++ Nat.repr (n / 100) ++
    String.mk [Char.ofNat 46, Nat.digitChar (n / 10 % 10), Nat.digitChar (n % 10)]

/-- Number of characters of `s` strictly after its last `.` (the full length
when `s` has no dot). -/
def fracDigits (s : String) : Nat :=
  (s.data.reverse.takeWhile (fun ch => ch ≠ Char.ofNat 46)).length

/-- The line printed by `time_hasher` (line 63):
`f"\x7bname:10s\x7d  \x7bavg_ms:8.2f\x7d ms per hash (over \x7brepeat\x7d runs)"`. -/
def formatLine (name : String) (avg_ms : ℚ) (repeat_ : Int) : String :=
  padRightTo name 10 ++ "  " ++ padLeftTo (fixed2 avg_ms) 8 ++
    " ms per hash (over " ++ toString repeat_ ++ " runs)"

/-- The timing loop `for _ in range(...): hash_func()` (lines 57-58) with an
explicit count of calls already made: runs `k` more iterations, invoking the
callable once per iteration, and aborts at the first call that raises.
Returns the total number of invocations performed and the error, if any. -/
def loopFrom (op : PyCallable) : Nat → Nat → Nat × Option PyError
  | 0, made => (made, none)
  | k + 1, made =>
    match op made with
    | some e => (made + 1, some e)
    | none => loopFrom op k (made + 1)

/-- The timing loop started from zero invocations made. -/
def loopRun (op : PyCallable) (k : Nat) : Nat × Option PyError :=
  loopFrom op k 0

/-- Value of a successful `time_hasher` call: the computed `avg_ms` and the
line it prints. -/
structure TimerResult where
  avg_ms : ℚ
  line : String
deriving DecidableEq

/-- Observable outcome of a `time_hasher` call: the printed line or the
propagated Python error, the number of invocations of `hash_func`, and the
number of `time.perf_counter` readings taken. -/
structure TimerOutcome where
  result : Except PyError TimerResult
  invocations : Nat
  clockReads : Nat

/-- Embedding of `time_hasher` (lines 51-63).  `start` is the clock reading
taken before the loop (index `c.reads`), `endr` the one taken after the loop
completes (index `c.reads + 1`; it is not taken when an iteration raises,
since the exception propagates before line 59 runs).  Python's
`range(repeat)` is empty for `repeat ≤ 0`, hence `repeat.toNat` iterations.
The division `total_seconds / repeat` (line 62) is unguarded: `repeat = 0`
raises `ZeroDivisionError`; there is no repetition-count validation of any
kind. -/
def time_hasher (name : String) (hash_func : PyCallable) (repeat_ : Int)
    (c : Clock) : TimerOutcome :=
  let start := c.readings c.reads
  match loopRun hash_func repeat_.toNat with
  | (made, some e) => ⟨.error e, made, 1⟩
  | (made, none) =>
    let endr := c.readings (c.reads + 1)
    if repeat_ = 0 then ⟨.error .zeroDivisionError, made, 2⟩
    else
      let avg := (endr - start) / (repeat_ : ℚ) * 1000
      ⟨.ok ⟨avg, formatLine name avg repeat_⟩, made, 2⟩

/-- Configuration constant `PASSWORD` (line 28). -/
def PASSWORD : Bytes :=
  "correct horse battery staple".data.map Char.toNat

/-- Configuration constant `REPEAT` (line 31). -/
def REPEAT : Nat := 100

/-- Configuration constant `BCRYPT_COST` (line 34). -/
def BCRYPT_COST : Nat := 12

/-- Configuration constant `SCRYPT_N` (line 37). -/
def SCRYPT_N : Nat := 2 ^ 14

/-- Configuration constant `SCRYPT_R` (line 38). -/
def SCRYPT_R : Nat := 8

/-- Configuration constant `SCRYPT_P` (line 39). -/
def SCRYPT_P : Nat := 1

/-- Configuration constant `ARGON2_TIME_COST` (line 42). -/
def ARGON2_TIME_COST : Nat := 2

/-- Configuration constant `ARGON2_MEMORY_COST` (line 43). -/
def ARGON2_MEMORY_COST : Nat := 64000

/-- Configuration constant `ARGON2_PARALLELISM` (line 44). -/
def ARGON2_PARALLELISM : Nat := 1

/-- Which factory constructions raise, for examining the `__main__` block
under the specification's §4.1 failure mode.  `bcryptErr` is an error raised
by `bcrypt.gensalt` inside `make_bcrypt_hasher` (the one factory whose
library call validates a tunable at construction time); `scryptErr` and
`argon2Err` are errors raised by `os.urandom` inside the other two factories.
With the script's fixed valid constants all three are `none`.
`make_sha256_hasher` performs no library call and cannot raise. -/
structure ConstructEnv where
  bcryptErr : Option PyError
  scryptErr : Option PyError
  argon2Err : Option PyError

/-- Outcome of the `__main__` block: which algorithms had their
`time_hasher` call run, the process exit code, and the uncaught exception if
one aborted the script. -/
structure MainOutcome where
  timedAlgos : List String
  exitCode : Nat
  uncaughtError : Option PyError
deriving DecidableEq

/-- Control flow of the `__main__` block (lines 120-150).  The four factory
calls (lines 135-143) execute in order with no `try`/`except` anywhere; the
four `time_hasher` calls (lines 147-150) run only after all four
constructions succeed.  A raising construction aborts the script with an
uncaught exception: CPython prints a traceback and exits with code 1, so no
algorithm is timed.  On normal completion the script exits with code 0. -/
def mainRun (env : ConstructEnv) : MainOutcome :=
  match env.bcryptErr with
  | some e => ⟨[], 1, some e⟩
  | none =>
    match env.scryptErr with
    | some e => ⟨[], 1, some e⟩
    | none =>
      match env.argon2Err with
      | some e => ⟨[], 1, some e⟩
      | none => ⟨["SHA-256", "bcrypt", "scrypt", "Argon2id"], 0, none⟩

/-- A zero-byte entropy stream at cursor 0, for concrete instantiations. -/
def rand0 : RandomState := ⟨fun _ => 0, 0⟩

/-- A one-valued entropy stream at cursor 0, distinct from `rand0`. -/
def rand1 : RandomState := ⟨fun _ => 1, 0⟩

/-- A clock whose every reading is 0, for concrete instantiations. -/
def clk0 : Clock := ⟨fun _ => 0, 0⟩

/-- A callable that always returns normally, for concrete instantiations. -/
def stubOk : PyCallable := fun _ => none

/-- A callable that raises `opError "boom"` on its third call (0-indexed
call 2) and returns normally otherwise — the stub of the specification's §8
test scenario. -/
def stubFail3 : PyCallable :=
  fun k => if k = 2 then some (.opError "boom") else none

/-- The mean value whose line the C6 witness examines. -/
def demoAvg : ℚ :=
  (clk0.readings (clk0.reads + 1) - clk0.readings clk0.reads) / ((100 : Int) : ℚ) * 1000

/-- The `TimerResult` the C6 witness examines. -/
def demoRes : TimerResult := ⟨demoAvg, formatLine "bcrypt" demoAvg 100⟩

/-- A construction environment in which only the bcrypt factory raises (as a
`ConfigurationError` from `bcrypt.gensalt`); the scrypt and Argon2id
factories would construct fine. -/
def envBcryptFail : ConstructEnv :=
  ⟨some (.opError "ConfigurationError: Invalid rounds"), none, none⟩


/-- Length of a run of spaces. -/
theorem spaces_length (k : Nat) : (spaces k).length = k := by
  simp [spaces, String.length]

/-- `padRightTo` produces a field of width the maximum of the content length
and the requested minimum. -/
theorem padRightTo_length (s : String) (w : Nat) :
    (padRightTo s w).length = max s.length w := by
  rw [padRightTo, String.length_append, spaces_length]
  omega

/-- `padLeftTo` produces a field of width the maximum of the content length
and the requested minimum. -/
theorem padLeftTo_length (s : String) (w : Nat) :
    (padLeftTo s w).length = max s.length w := by
  rw [padLeftTo, String.length_append, spaces_length]
  omega

/-- Decimal digit characters are never the dot character. -/
theorem digitChar_mod10_ne_dot (m : Nat) :
    Nat.digitChar (m % 10) ≠ Char.ofNat 46 := by
  have hb : ∀ d, d < 10 → Nat.digitChar d ≠ Char.ofNat 46 := by decide
  exact hb _ (Nat.mod_lt _ (by omega))

/-- `fixed2` always renders exactly two digits after the decimal point. -/
theorem fracDigits_fixed2 (q : ℚ) : fracDigits (fixed2 q) = 2 := by
  have h1 := digitChar_mod10_ne_dot ((roundHalfEven (q * 100)).natAbs / 10)
  have h2 := digitChar_mod10_ne_dot (roundHalfEven (q * 100)).natAbs
  simp [fixed2, fracDigits, String.data_append, List.takeWhile_cons, h1, h2]

/-- `fixed2` always contains a decimal point. -/
theorem dot_mem_fixed2 (q : ℚ) : Char.ofNat 46 ∈ (fixed2 q).data := by
  simp [fixed2, String.data_append]

/-- The timing loop invokes the callable once per remaining iteration when no
call raises. -/
theorem loopFrom_ok (op : PyCallable) :
    ∀ (k made : Nat), (∀ j, j < k → op (made + j) = none) →
      loopFrom op k made = (made + k, none) := by
  intro k
  induction k with
  | zero => intro made _; simp [loopFrom]
  | succ k ih =>
    intro made h
    have h0 : op made = none := by simpa using h 0 (Nat.succ_pos k)
    have hrest : ∀ j, j < k → op (made + 1 + j) = none := by
      intro j hj
      have hx := h (j + 1) (by omega)
      have e1 : made + (j + 1) = made + 1 + j := by omega
      rw [e1] at hx
      exact hx
    simp [loopFrom, h0, ih (made + 1) hrest]
    omega

/-- The timing loop aborts at the first raising call: when the calls before
index `made + i` return normally and the one at `made + i` raises, exactly
`i + 1` further invocations happen and the error is returned. -/
theorem loopFrom_fail (op : PyCallable) (e : PyError) :
    ∀ (i k made : Nat), i < k → (∀ j, j < i → op (made + j) = none) →
      op (made + i) = some e →
      loopFrom op k made = (made + i + 1, some e) := by
  intro i
  induction i with
  | zero =>
    intro k made hk _ hfail
    cases k with
    | zero => omega
    | succ k =>
      have h0 : op made = some e := by simpa using hfail
      simp [loopFrom, h0]
  | succ i ih =>
    intro k made hk hnone hfail
    cases k with
    | zero => omega
    | succ k =>
      have h0 : op made = none := by simpa using hnone 0 (Nat.succ_pos i)
      have hnone' : ∀ j, j < i → op (made + 1 + j) = none := by
        intro j hj
        have hx := hnone (j + 1) (by omega)
        have e1 : made + (j + 1) = made + 1 + j := by omega
        rw [e1] at hx
        exact hx
      have hfail' : op (made + 1 + i) = some e := by
        have e1 : made + (i + 1) = made + 1 + i := by omega
        rw [e1] at hfail
        exact hfail
      have hr := ih k (made + 1) (by omega) hnone' hfail'
      simp [loopFrom, h0, hr]
      omega

/-- `loopRun` with an always-normal callable performs all `n` invocations. -/
theorem loopRun_ok (op : PyCallable) (n : Nat) (h : ∀ j, j < n → op j = none) :
    loopRun op n = (n, none) := by
  have hx := loopFrom_ok op n 0 (by simpa using h)
  simpa [loopRun] using hx

/-- `loopRun` aborts at the first raising call. -/
theorem loopRun_fail (op : PyCallable) (e : PyError) (i n : Nat) (hi : i < n)
    (h : ∀ j, j < i → op j = none) (hf : op i = some e) :
    loopRun op n = (i + 1, some e) := by
  have hx := loopFrom_fail op e i n 0 hi (by simpa using h) (by simpa using hf)
  simpa [loopRun] using hx

/-- Characterization of a successful `time_hasher` call: the returned record
carries the mean `(end - start) / repetitions * 1000` and the formatted line,
and the repetition count was nonzero. -/
theorem time_hasher_ok_elim (name : String) (op : PyCallable) (rep : Int)
    (c : Clock) (res : TimerResult)
    (hres : (time_hasher name op rep c).result = .ok res) :
    res = ⟨(c.readings (c.reads + 1) - c.readings c.reads) / (rep : ℚ) * 1000,
      formatLine name
        ((c.readings (c.reads + 1) - c.readings c.reads) / (rep : ℚ) * 1000) rep⟩
    ∧ ¬ rep = 0 := by
  rcases hl : loopRun op rep.toNat with ⟨made, err⟩
  cases err with
  | some e => simp [time_hasher, hl] at hres
  | none =>
    by_cases h0 : rep = 0
    · subst h0
      simp [time_hasher, loopRun, loopFrom] at hres
    · simp [time_hasher, hl, h0] at hres
      exact ⟨hres.symm, h0⟩

/-- Claim C2: for every operation and every repetitions ≥ 1 where no invocation
fails, `time_hasher` takes a clock reading, invokes the operation exactly
`repetitions` times sequentially, takes a second clock reading, and reports
`mean_latency_ms = (end - start) / repetitions * 1000`. -/
theorem time_hasher_measures_mean (name : String) (op : PyCallable) (rep : Int)
    (c : Clock) (h1 : 1 ≤ rep) (h2 : ∀ j, j < rep.toNat → op j = none) :
    time_hasher name op rep c =
      ⟨.ok ⟨(c.readings (c.reads + 1) - c.readings c.reads) / (rep : ℚ) * 1000,
        formatLine name
          ((c.readings (c.reads + 1) - c.readings c.reads) / (rep : ℚ) * 1000) rep⟩,
        rep.toNat, 2⟩
    ∧ (rep.toNat : Int) = rep := by
  have hloop := loopRun_ok op rep.toNat h2
  have hne : ¬ rep = 0 := by omega
  exact ⟨by simp [time_hasher, hloop, hne], Int.toNat_of_nonneg (by omega)⟩

theorem time_hasher_measures_mean_witness :
    time_hasher "SHA-256" stubOk 3 clk0 =
      ⟨.ok ⟨(clk0.readings (clk0.reads + 1) - clk0.readings clk0.reads) / ((3 : Int) : ℚ) * 1000,
        formatLine "SHA-256"
          ((clk0.readings (clk0.reads + 1) - clk0.readings clk0.reads) / ((3 : Int) : ℚ) * 1000) 3⟩,
        (3 : Int).toNat, 2⟩
    ∧ ((3 : Int).toNat : Int) = 3 :=
  time_hasher_measures_mean "SHA-256" stubOk 3 clk0 (by decide) (by decide)

/-- Claim C7: whenever `time_hasher` produces a mean at all, repetitions is ≥ 1 and
the clock is non-decreasing between its two readings, the mean is ≥ 0. -/
theorem time_hasher_mean_nonneg (name : String) (op : PyCallable) (rep : Int)
    (c : Clock) (res : TimerResult) (h1 : 1 ≤ rep)
    (hmono : c.readings c.reads ≤ c.readings (c.reads + 1))
    (hres : (time_hasher name op rep c).result = .ok res) :
    0 ≤ res.avg_ms := by
  obtain ⟨hres', -⟩ := time_hasher_ok_elim name op rep c res hres
  rw [hres']
  have hp : (0 : ℚ) < (rep : ℚ) := by exact_mod_cast (by omega : (0 : Int) < rep)
  have ht : 0 ≤ c.readings (c.reads + 1) - c.readings c.reads := sub_nonneg.mpr hmono
  exact mul_nonneg (div_nonneg ht hp.le) (by norm_num)

theorem time_hasher_mean_nonneg_witness :
    0 ≤ (⟨(clk0.readings (clk0.reads + 1) - clk0.readings clk0.reads) / ((1 : Int) : ℚ) * 1000,
      formatLine "SHA-256"
        ((clk0.readings (clk0.reads + 1) - clk0.readings clk0.reads) / ((1 : Int) : ℚ) * 1000) 1⟩ :
      TimerResult).avg_ms :=
  time_hasher_mean_nonneg "SHA-256" stubOk 1 clk0 _ (by decide) (by decide) rfl

/-- Claim C6: every line printed by `time_hasher` is the algorithm name
left-justified in a field of minimum width 10, two spaces, the mean latency
rendered with exactly 2 fractional digits right-aligned in a field of minimum
width 8, then the literal text " ms per hash (over N runs)" with N the
repetition count. -/
theorem time_hasher_line_format (name : String) (op : PyCallable) (rep : Int)
    (c : Clock) (res : TimerResult)
    (hres : (time_hasher name op rep c).result = .ok res) :
    res.line = formatLine name res.avg_ms rep
    ∧ formatLine name res.avg_ms rep =
        (name ++ spaces (10 - name.length)) ++ "  " ++
          (spaces (8 - (fixed2 res.avg_ms).length) ++ fixed2 res.avg_ms) ++
          " ms per hash (over " ++ toString rep ++ " runs)"
    ∧ (name ++ spaces (10 - name.length)).length = max name.length 10
    ∧ (spaces (8 - (fixed2 res.avg_ms).length) ++ fixed2 res.avg_ms).length =
        max (fixed2 res.avg_ms).length 8
    ∧ fracDigits (fixed2 res.avg_ms) = 2
    ∧ Char.ofNat 46 ∈ (fixed2 res.avg_ms).data := by
  obtain ⟨hres', -⟩ := time_hasher_ok_elim name op rep c res hres
  refine ⟨by rw [hres'], rfl, ?_, ?_, fracDigits_fixed2 _, dot_mem_fixed2 _⟩
  · rw [String.length_append, spaces_length]
    omega
  · rw [String.length_append, spaces_length]
    omega

theorem time_hasher_line_format_witness :
    demoRes.line = formatLine "bcrypt" demoRes.avg_ms 100
    ∧ formatLine "bcrypt" demoRes.avg_ms 100 =
        ("bcrypt" ++ spaces (10 - "bcrypt".length)) ++ "  " ++
          (spaces (8 - (fixed2 demoRes.avg_ms).length) ++ fixed2 demoRes.avg_ms) ++
          " ms per hash (over " ++ toString (100 : Int) ++ " runs)"
    ∧ ("bcrypt" ++ spaces (10 - "bcrypt".length)).length = max "bcrypt".length 10
    ∧ (spaces (8 - (fixed2 demoRes.avg_ms).length) ++ fixed2 demoRes.avg_ms).length =
        max (fixed2 demoRes.avg_ms).length 8
    ∧ fracDigits (fixed2 demoRes.avg_ms) = 2
    ∧ Char.ofNat 46 ∈ (fixed2 demoRes.avg_ms).data :=
  time_hasher_line_format "bcrypt" stubOk 100 clk0 demoRes rfl

/-- Claim C9: calling `time_hasher` with `repeat = 0` performs zero invocations of
the callable and raises `ZeroDivisionError` at the unguarded division by the
repetition count, after having taken both clock readings. -/
theorem time_hasher_zero_repeat_zero_division (name : String) (op : PyCallable)
    (c : Clock) :
    time_hasher name op 0 c = ⟨.error .zeroDivisionError, 0, 2⟩ := rfl

/-- Claim C4 counterexample: at repetitions = 0 `time_hasher` fails with
`ZeroDivisionError`, which is not `InvalidArgument`, and at repetitions = -1
it does not fail at all — refuting the claim that non-positive repetition
counts fail with `InvalidArgument`. -/
theorem time_hasher_no_invalid_argument_cex :
    (time_hasher "stub" stubOk 0 clk0).result = .error .zeroDivisionError
    ∧ PyError.zeroDivisionError ≠ PyError.invalidArgument
    ∧ (time_hasher "stub" stubOk (-1) clk0).result.isOk = true
    ∧ (time_hasher "stub" stubOk (-1) clk0).invocations = 0 :=
  ⟨rfl, by decide, rfl, rfl⟩

/-- Claim C4 amended: `time_hasher` performs zero invocations for any non-positive
repetition count; at 0 it then raises `ZeroDivisionError` (not
`InvalidArgument`), while for negative counts it completes without any error,
reporting a mean computed over the negative count. -/
theorem time_hasher_nonpositive_repeat (name : String) (op : PyCallable)
    (c : Clock) :
    time_hasher name op 0 c = ⟨.error .zeroDivisionError, 0, 2⟩
    ∧ ∀ rep : Int, rep < 0 →
        time_hasher name op rep c =
          ⟨.ok ⟨(c.readings (c.reads + 1) - c.readings c.reads) / (rep : ℚ) * 1000,
            formatLine name
              ((c.readings (c.reads + 1) - c.readings c.reads) / (rep : ℚ) * 1000) rep⟩,
            0, 2⟩ := by
  refine ⟨rfl, fun rep hneg => ?_⟩
  have ht : rep.toNat = 0 := Int.toNat_of_nonpos (by omega)
  have hne : ¬ rep = 0 := by omega
  simp [time_hasher, ht, loopRun, loopFrom, hne]

theorem time_hasher_nonpositive_repeat_witness :
    time_hasher "stub" stubOk (-2) clk0 =
      ⟨.ok ⟨(clk0.readings (clk0.reads + 1) - clk0.readings clk0.reads) / ((-2 : Int) : ℚ) * 1000,
        formatLine "stub"
          ((clk0.readings (clk0.reads + 1) - clk0.readings clk0.reads) / ((-2 : Int) : ℚ) * 1000)
          (-2)⟩,
        0, 2⟩ :=
  (time_hasher_nonpositive_repeat "stub" stubOk clk0).2 (-2) (by decide)

/-- Claim C5 counterexample: with the spec's stub (fails on its 3rd invocation, 5
requested repetitions) `time_hasher` propagates the stub's own raw error,
which carries no `OperationFailed` tag — refuting the claim that an
iteration-tagged `OperationFailed` is propagated. -/
theorem time_hasher_failure_untagged_cex :
    time_hasher "stub" stubFail3 5 clk0 = ⟨.error (.opError "boom"), 3, 1⟩
    ∧ PyError.isOperationFailed (.opError "boom") = false :=
  ⟨rfl, rfl⟩

/-- Claim C5 amended: if the callable's calls at 0-indexed positions below `i`
return normally and the call at position `i` raises error `e`, with `i` below
the requested repetition count, then `time_hasher` aborts immediately — the
callable is invoked exactly `i + 1` times, no invocations after the failure,
only one clock reading is taken and no mean is computed — and propagates `e`
itself, unwrapped and untagged. -/
theorem time_hasher_aborts_on_first_failure (name : String) (op : PyCallable)
    (rep : Int) (c : Clock) (i : Nat) (e : PyError) (hi : (i : Int) < rep)
    (hok : ∀ j, j < i → op j = none) (hf : op i = some e) :
    time_hasher name op rep c = ⟨.error e, i + 1, 1⟩ := by
  have hi' : i < rep.toNat := Int.lt_toNat.mpr hi
  have hl := loopRun_fail op e i rep.toNat hi' hok hf
  simp [time_hasher, hl]

theorem time_hasher_aborts_on_first_failure_witness :
    time_hasher "demo" stubFail3 5 clk0 = ⟨.error (.opError "boom"), 2 + 1, 1⟩ :=
  time_hasher_aborts_on_first_failure "demo" stubFail3 5 clk0 2 (.opError "boom")
    (by decide) (by decide) (by decide)

/-- Claim C1: for each of the bcrypt, scrypt and Argon2id factories, salt
generation happens exactly once at construction time — construction advances
the entropy cursor by exactly the 16 bytes of one salt — and every invocation
of the returned callable leaves the entropy source untouched and hashes with
the salt captured at construction. -/
theorem salt_generated_once_at_construction (password : Bytes)
    (cost n r p tc mc par : Nat) (w w1 : RandomState) :
    (make_bcrypt_hasher password cost w).2.cursor = w.cursor + 16
    ∧ ((make_bcrypt_hasher password cost w).1.do_hash w1).world = w1
    ∧ ((make_bcrypt_hasher password cost w).1.do_hash w1).computed =
        .bcrypt password (make_bcrypt_hasher password cost w).1.salt
    ∧ (make_scrypt_hasher password n r p w).2.cursor = w.cursor + 16
    ∧ ((make_scrypt_hasher password n r p w).1.do_hash w1).world = w1
    ∧ ((make_scrypt_hasher password n r p w).1.do_hash w1).computed =
        .scrypt password (make_scrypt_hasher password n r p w).1.salt n r p
    ∧ (make_argon2id_hasher password tc mc par w).2.cursor = w.cursor + 16
    ∧ ((make_argon2id_hasher password tc mc par w).1.do_hash w1).world = w1
    ∧ ((make_argon2id_hasher password tc mc par w).1.do_hash w1).computed =
        .argon2 password (make_argon2id_hasher password tc mc par w).1.salt tc mc par 32 .ID :=
  ⟨rfl, rfl, rfl, rfl, rfl, rfl, rfl, rfl, rfl⟩

/-- Claim C10: every constructed hash callable is deterministic and pure — each
invocation computes the hash value determined by the captured password, salt
and tunables (identical across any two invocations), returns Python `None`,
and leaves the entropy source (the only module-level mutable state the
closures can reach) unchanged. -/
theorem do_hash_deterministic_pure (password : Bytes)
    (cost n r p tc mc par : Nat) (w w1 w2 : RandomState) :
    ((make_sha256_hasher password).do_hash w1).ret = none
    ∧ ((make_sha256_hasher password).do_hash w1).world = w1
    ∧ ((make_sha256_hasher password).do_hash w1).computed =
        ((make_sha256_hasher password).do_hash w2).computed
    ∧ ((make_bcrypt_hasher password cost w).1.do_hash w1).ret = none
    ∧ ((make_bcrypt_hasher password cost w).1.do_hash w1).world = w1
    ∧ ((make_bcrypt_hasher password cost w).1.do_hash w1).computed =
        ((make_bcrypt_hasher password cost w).1.do_hash w2).computed
    ∧ ((make_scrypt_hasher password n r p w).1.do_hash w1).ret = none
    ∧ ((make_scrypt_hasher password n r p w).1.do_hash w1).world = w1
    ∧ ((make_scrypt_hasher password n r p w).1.do_hash w1).computed =
        ((make_scrypt_hasher password n r p w).1.do_hash w2).computed
    ∧ ((make_argon2id_hasher password tc mc par w).1.do_hash w1).ret = none
    ∧ ((make_argon2id_hasher password tc mc par w).1.do_hash w1).world = w1
    ∧ ((make_argon2id_hasher password tc mc par w).1.do_hash w1).computed =
        ((make_argon2id_hasher password tc mc par w).1.do_hash w2).computed :=
  ⟨rfl, rfl, rfl, rfl, rfl, rfl, rfl, rfl, rfl, rfl, rfl, rfl⟩

/-- Claim C8: for each salt-using factory, whenever the random bytes drawn by two
separate constructions differ, the two captured salts differ. -/
theorem distinct_randomness_distinct_salts (password : Bytes)
    (cost n r p tc mc par : Nat) (w1 w2 : RandomState)
    (h : (urandom 16 w1).1 ≠ (urandom 16 w2).1) :
    (make_bcrypt_hasher password cost w1).1.salt ≠
      (make_bcrypt_hasher password cost w2).1.salt
    ∧ (make_scrypt_hasher password n r p w1).1.salt ≠
        (make_scrypt_hasher password n r p w2).1.salt
    ∧ (make_argon2id_hasher password tc mc par w1).1.salt ≠
        (make_argon2id_hasher password tc mc par w2).1.salt :=
  ⟨fun heq => h (congrArg BcryptSalt.randomBytes heq),
   fun heq => h heq, fun heq => h heq⟩

theorem distinct_randomness_distinct_salts_witness :
    (make_bcrypt_hasher PASSWORD BCRYPT_COST rand0).1.salt ≠
      (make_bcrypt_hasher PASSWORD BCRYPT_COST rand1).1.salt
    ∧ (make_scrypt_hasher PASSWORD SCRYPT_N SCRYPT_R SCRYPT_P rand0).1.salt ≠
        (make_scrypt_hasher PASSWORD SCRYPT_N SCRYPT_R SCRYPT_P rand1).1.salt
    ∧ (make_argon2id_hasher PASSWORD ARGON2_TIME_COST ARGON2_MEMORY_COST
          ARGON2_PARALLELISM rand0).1.salt ≠
        (make_argon2id_hasher PASSWORD ARGON2_TIME_COST ARGON2_MEMORY_COST
          ARGON2_PARALLELISM rand1).1.salt :=
  distinct_randomness_distinct_salts PASSWORD BCRYPT_COST SCRYPT_N SCRYPT_R SCRYPT_P
    ARGON2_TIME_COST ARGON2_MEMORY_COST ARGON2_PARALLELISM rand0 rand1 (by decide)

/-- Claim C3 counterexample: when only the bcrypt factory fails at construction,
the `__main__` block does not time a single algorithm (scrypt and Argon2id
are never even constructed) and the process exits with code 1, not 0 —
refuting the claim that the driver skips the failed algorithm, runs the rest
and exits 0. -/
theorem main_single_failure_no_recovery_cex :
    mainRun envBcryptFail =
      ⟨[], 1, some (.opError "ConfigurationError: Invalid rounds")⟩
    ∧ (mainRun envBcryptFail).exitCode ≠ 0
    ∧ "scrypt" ∉ (mainRun envBcryptFail).timedAlgos
    ∧ "Argon2id" ∉ (mainRun envBcryptFail).timedAlgos :=
  ⟨rfl, by decide, by decide, by decide⟩

/-- Claim C3 amended: the `__main__` block has no error handling — if any factory
raises at construction time, the uncaught exception aborts the script before
any timing runs (no algorithm is timed, the exception propagates, exit code
1, even though other algorithms could have run); only when every construction
succeeds do all four algorithms get timed and the script exit with code 0. -/
theorem main_aborts_on_factory_failure (env : ConstructEnv)
    (h : env.bcryptErr ≠ none ∨ env.scryptErr ≠ none ∨ env.argon2Err ≠ none) :
    (mainRun env).timedAlgos = [] ∧ (mainRun env).exitCode = 1
    ∧ (mainRun env).uncaughtError ≠ none
    ∧ mainRun ⟨none, none, none⟩ =
        ⟨["SHA-256", "bcrypt", "scrypt", "Argon2id"], 0, none⟩ := by
  obtain ⟨b, s, a⟩ := env
  cases b <;> cases s <;> cases a <;> simp_all [mainRun]

theorem main_aborts_on_factory_failure_witness :
    (mainRun envBcryptFail).timedAlgos = [] ∧ (mainRun envBcryptFail).exitCode = 1
    ∧ (mainRun envBcryptFail).uncaughtError ≠ none
    ∧ mainRun ⟨none, none, none⟩ =
        ⟨["SHA-256", "bcrypt", "scrypt", "Argon2id"], 0, none⟩ :=
  main_aborts_on_factory_failure envBcryptFail (Or.inl (by simp [envBcryptFail]))
